import Mathlib

/-!
Verification of the command-resolution core of `subdue` (`src/subdue/sub/_main.py`)
against its natural-language specification.

The filesystem is abstracted as two read-only boolean probes (`os.path.isdir`
and `os.access(-, os.X_OK)`).  Python exceptions are modelled with `Except`:
`find_command_path` can raise `UnboundLocalError` (reading the loop-local
`is_dir` before any loop iteration assigned it) and `IndexError` (indexing
`token[0]` on an empty string).
-/

namespace Subdue

/-- The read-only filesystem probes used by `find_command_path`:
`isDir p` models `os.path.isdir(p)` and `isExec p` models
`os.access(p, os.X_OK)`. -/
structure FS where
  isDir : String → Bool
  isExec : String → Bool

/-- `os.path.join(p, t)` for a relative single-segment `t`. -/
def joinP (p t : String) : String := p ++ "/" ++ t

/-- `mkcmd(command, sh_flag)`: prepend the shell-eval prefix when asked. -/
def mkcmd (command : String) (sh_flag : Bool) : String :=
  if sh_flag then "sh-" ++ command else command

/-- Python `s.startswith(pre)`, as a prefix test on the character lists. -/
def strStartsWith (s pre : String) : Bool := pre.data.isPrefixOf s.data

/-- The `Command` object of `_main.py`.  `create_not_found` fills the last
four fields with Python `None`, hence the `Option` types. -/
structure Command where
  tokens : List String
  path : Option String
  is_sh : Option Bool
  is_container : Option Bool
  arguments : Option (List String)
deriving Repr, DecidableEq

/-- The ordinary `Command.__init__` call, with every field a real value. -/
def Command.make (tokens : List String) (path : String) (is_sh : Bool)
    (is_container : Bool) (arguments : List String) : Command :=
  ⟨tokens, some path, some is_sh, some is_container, some arguments⟩

/-- `Command.create_not_found(tokens)`: the sentinel with `None` fields. -/
def Command.create_not_found (tokens : List String) : Command :=
  ⟨tokens, none, none, none, none⟩

/-- `Command.found`: `self.path is not None`. -/
def Command.found (c : Command) : Bool := c.path.isSome

/-- `Command.command`: `' '.join(self.tokens)`. -/
def Command.command (c : Command) : String := String.intercalate " " c.tokens

/-- `Command.is_eval`: `self.tokens[-1].startswith('sh-')`; raises
`IndexError` when `tokens` is empty. -/
def Command.is_eval (c : Command) : Except String Bool :=
  match c.tokens.getLast? with
  | none => Except.error "IndexError"
  | some t => Except.ok (strStartsWith t "sh-")

/-- `Command.found_with_sh`: returns `self.is_sh`. -/
def Command.found_with_sh (c : Command) : Option Bool := c.is_sh

/-- The `for (shift, token) in enumerate(argv)` loop of `find_command_path`,
one recursive step per iteration.  `rest` is the unprocessed suffix of
`argv`, `running_path` / `command` / `is_sh` the loop state, and `is_dir`
the loop-local variable (`none` = not yet assigned; reading it then is
Python's `UnboundLocalError`).  On `break` or loop exhaustion the function
builds `Command(command, running_path, is_sh, is_dir, argv[shift+1:])`. -/
def findLoop (fs : FS) : List String → String → List String → Bool →
    Option Bool → Except String Command
  | [], running_path, command, is_sh, is_dir =>
    match is_dir with
    | none => Except.error "UnboundLocalError"
    | some d => Except.ok (Command.make command running_path is_sh d [])
  | token :: rest, running_path, command, is_sh, is_dir =>
    if token = "" then Except.error "IndexError"
    else if token.front = '-' then
      match is_dir with
      | none => Except.error "UnboundLocalError"
      | some d => Except.ok (Command.make command running_path is_sh d rest)
    else
      let command' := command ++ [token]
      let possible_path := joinP running_path token
      if fs.isDir possible_path then
        findLoop fs rest possible_path command' is_sh (some true)
      else if fs.isExec possible_path then
        Except.ok (Command.make command' possible_path is_sh false rest)
      else if fs.isExec (joinP running_path (mkcmd token true)) then
        Except.ok
          (Command.make command' (joinP running_path (mkcmd token true))
            true false rest)
      else
        Except.ok (Command.create_not_found command')

/-- `find_command_path(argv, paths, start_dir)`.  `root` is the starting
directory (`paths.commands`, or `start_dir` when supplied). -/
def find_command_path (fs : FS) (argv : List String) (root : String) :
    Except String Command :=
  findLoop fs argv root [] false none

/-- The observable effect of `die(error)`: write `error` then a newline to
standard error and exit with status 1. -/
structure Died where
  stderr : String
  code : Nat
deriving Repr, DecidableEq

/-- `die(error)`: `sys.stderr.write(error); sys.stderr.write("\n"); sys.exit(1)`. -/
def die (error : String) : Died := ⟨error ++ "\n", 1⟩

/-- The format string `"\x7b0\x7d: no such command \x60\x7b1\x7d\x27"` of `main`,
applied to `paths.name` and `command.command`. -/
def noSuchCommandMsg (name : String) (c : Command) : String :=
  name ++ ": no such command `" ++ c.command ++ "\x27"

/-- The format string `"\x7b0\x7d: can\x27t run a container \x60\x7b1\x7d\x27"` of
`main`, applied to `paths.name` and `command.command`. -/
def cantRunContainerMsg (name : String) (c : Command) : String :=
  name ++ ": can\x27t run a container `" ++ c.command ++ "\x27"

/-- The dispatch branch of `main` after `find_command_path` returned `c`:
`not c.found` dies with the no-such-command message, a container dies with
the container message, and otherwise (`none` here) the command is run. -/
def mainDispatch (name : String) (c : Command) : Option Died :=
  if c.found = false then some (die (noSuchCommandMsg name c))
  else if c.is_container = some true then some (die (cantRunContainerMsg name c))
  else none

/-- Modelled from the spec words of the CLI surface (for comparison with the
code): the consumed tokens enclosed in straight single quotes on both sides. -/
def specNoSuchCommandMsg (name : String) (c : Command) : String :=
  name ++ ": no such command \x27" ++ c.command ++ "\x27"

/-- Modelled from the spec words of the CLI surface (for comparison with the
code): the container message with straight single quotes on both sides. -/
def specCantRunContainerMsg (name : String) (c : Command) : String :=
  name ++ ": can\x27t run a container \x27" ++ c.command ++ "\x27"

/-- A leaf found by the direct executable match in directory `dir` on last
token `t`: the candidate is not a directory and passes the executable probe. -/
def DirectLeafAt (fs : FS) (c : Command) (dir t : String) : Prop :=
  c.is_sh = some false ∧ c.path = some (joinP dir t) ∧
  fs.isDir (joinP dir t) = false ∧ fs.isExec (joinP dir t) = true

/-- A leaf found by the `sh-` fallback in directory `dir` on last token `t`:
the direct candidate is neither a directory nor executable, and the `sh-`
candidate passes the executable probe (its directory status is not probed). -/
def ShFallbackLeafAt (fs : FS) (c : Command) (dir t : String) : Prop :=
  c.is_sh = some true ∧ c.path = some (joinP dir (mkcmd t true)) ∧
  fs.isDir (joinP dir t) = false ∧ fs.isExec (joinP dir t) = false ∧
  fs.isExec (joinP dir (mkcmd t true)) = true

/-- A tree with a single entry: a directory named `sh-foo` under `r` whose
execute bit is set (`os.access(-, X_OK)` answers true on such a directory). -/
def fsShFoo : FS := ⟨fun p => p == "r/sh-foo", fun p => p == "r/sh-foo"⟩

/-- The empty tree: every probe answers false. -/
def fsEmpty : FS := ⟨fun _ => false, fun _ => false⟩

/-- A tree with a single directory `r/deploy`. -/
def fsDeploy : FS := ⟨fun p => p == "r/deploy", fun _ => false⟩

/-- A tree with two executables `r/foo` and `r/sh-foo`. -/
def fsFooBoth : FS := ⟨fun _ => false, fun p => p == "r/foo" || p == "r/sh-foo"⟩

/-- A tree with directory `r/a` containing an executable `b`. -/
def fsTree : FS := ⟨fun p => p == "r/a", fun p => p == "r/a/b"⟩

/-- A tree with directories `r/a` and `r/a/b` and no executables. -/
def fsDirs : FS := ⟨fun p => p == "r/a" || p == "r/a/b", fun _ => false⟩

/-- A tree with a single executable whose own name carries the `sh-` prefix. -/
def fsShBar : FS := ⟨fun _ => false, fun p => p == "r/sh-bar"⟩

theorem findLoop_ok_spec (fs : FS) (rest : List String) :
    ∀ (p : String) (cmd : List String) (d : Option Bool) (c : Command),
      d ≠ some false →
      findLoop fs rest p cmd false d = Except.ok c →
      ((∃ pre, c.tokens = cmd ++ pre ∧ List.IsPrefix pre rest) ∧
       (c.found = true → c.is_container = some false →
         (∃ args, c.arguments = some args ∧ c.tokens ++ args = cmd ++ rest) ∧
         (∃ dir t, c.tokens.getLast? = some t ∧
           (DirectLeafAt fs c dir t ∨ ShFallbackLeafAt fs c dir t)))) := by
  induction rest with
  | nil =>
    intro p cmd d c hd h
    match d, hd with
    | none, _ => simp [findLoop] at h
    | some true, _ =>
      simp only [findLoop, Except.ok.injEq] at h
      subst h
      refine ⟨⟨[], by simp [Command.make], List.nil_prefix⟩, ?_⟩
      intro _ hcont
      simp [Command.make] at hcont
  | cons t rest ih =>
    intro p cmd d c hd h
    simp only [findLoop] at h
    by_cases h0 : t = ""
    · rw [if_pos h0] at h; exact absurd h (by simp)
    rw [if_neg h0] at h
    by_cases h1 : t.front = '-'
    · rw [if_pos h1] at h
      match d, hd with
      | none, _ => simp at h
      | some true, _ =>
        simp only [Except.ok.injEq] at h
        subst h
        refine ⟨⟨[], by simp [Command.make], List.nil_prefix⟩, ?_⟩
        intro _ hcont
        simp [Command.make] at hcont
    rw [if_neg h1] at h
    by_cases h2 : fs.isDir (joinP p t) = true
    · rw [if_pos h2] at h
      obtain ⟨⟨pre, htok, hpre⟩, hleaf⟩ :=
        ih (joinP p t) (cmd ++ [t]) (some true) c (by simp) h
      refine ⟨⟨t :: pre, by simpa using htok, ?_⟩, ?_⟩
      · obtain ⟨s, rfl⟩ := hpre
        exact ⟨s, rfl⟩
      intro hf hc
      obtain ⟨⟨args, ha1, ha2⟩, hchar⟩ := hleaf hf hc
      exact ⟨⟨args, ha1, by simpa using ha2⟩, hchar⟩
    rw [if_neg h2] at h
    by_cases h3 : fs.isExec (joinP p t) = true
    · rw [if_pos h3] at h
      simp only [Except.ok.injEq] at h
      subst h
      refine ⟨⟨[t], rfl, by simp⟩, ?_⟩
      intro _ _
      refine ⟨⟨rest, rfl, by simp [Command.make]⟩, p, t, ?_, Or.inl ?_⟩
      · exact List.getLast?_concat _
      · exact ⟨rfl, rfl, Bool.eq_false_iff.mpr h2, h3⟩
    rw [if_neg h3] at h
    by_cases h4 : fs.isExec (joinP p (mkcmd t true)) = true
    · rw [if_pos h4] at h
      simp only [Except.ok.injEq] at h
      subst h
      refine ⟨⟨[t], rfl, by simp⟩, ?_⟩
      intro _ _
      refine ⟨⟨rest, rfl, by simp [Command.make]⟩, p, t, ?_, Or.inr ?_⟩
      · exact List.getLast?_concat _
      · exact ⟨rfl, rfl, Bool.eq_false_iff.mpr h2, Bool.eq_false_iff.mpr h3, h4⟩
    rw [if_neg h4] at h
    simp only [Except.ok.injEq] at h
    subst h
    refine ⟨⟨[t], rfl, by simp⟩, ?_⟩
    intro hf _
    simp [Command.found, Command.create_not_found] at hf

theorem findLoop_total (fs : FS) (rest : List String) :
    ∀ (p : String) (cmd : List String) (sh : Bool),
      (∀ t ∈ rest, t ≠ "") →
      ∃ c, findLoop fs rest p cmd sh (some true) = Except.ok c := by
  induction rest with
  | nil => intro p cmd sh _; exact ⟨_, rfl⟩
  | cons t rest ih =>
    intro p cmd sh hall
    have ht : t ≠ "" := hall t (by simp)
    simp only [findLoop]
    rw [if_neg ht]
    by_cases h1 : t.front = '-'
    · rw [if_pos h1]; exact ⟨_, rfl⟩
    rw [if_neg h1]
    by_cases h2 : fs.isDir (joinP p t) = true
    · rw [if_pos h2]
      exact ih (joinP p t) (cmd ++ [t]) sh (fun x hx => hall x (by simp [hx]))
    rw [if_neg h2]
    by_cases h3 : fs.isExec (joinP p t) = true
    · rw [if_pos h3]; exact ⟨_, rfl⟩
    rw [if_neg h3]
    by_cases h4 : fs.isExec (joinP p (mkcmd t true)) = true
    · rw [if_pos h4]; exact ⟨_, rfl⟩
    rw [if_neg h4]; exact ⟨_, rfl⟩

theorem command_is_eval_last (c : Command) (h : c.tokens ≠ []) :
    c.is_eval = Except.ok (strStartsWith (c.tokens.getLastD "") "sh-") := by
  unfold Command.is_eval
  split
  next heq => exact absurd (List.getLast?_eq_none_iff.mp heq) h
  next t heq =>
    rw [List.getLastD_eq_getLast?, heq]
    rfl

end Subdue

namespace Subdue

/-- C1 (amended): for every resolution call that returns a Leaf, the path
passes the executable probe, and the result is exactly one of: a direct
match (the candidate is moreover not a directory, `is_sh = false`) or the
`sh-` fallback (`is_sh = true`; only executability of the `sh-` candidate
was probed, so it may itself be a directory). -/
theorem C1_leaf_characterization (fs : FS) (argv : List String) (root : String)
    (c : Command) (h : find_command_path fs argv root = Except.ok c)
    (hf : c.found = true) (hc : c.is_container = some false) :
    (∃ pth, c.path = some pth ∧ fs.isExec pth = true) ∧
    (∃ dir t, c.tokens.getLast? = some t ∧
      (DirectLeafAt fs c dir t ∨ ShFallbackLeafAt fs c dir t)) := by
  obtain ⟨-, hleaf⟩ := findLoop_ok_spec fs argv root [] none c (by simp) h
  obtain ⟨-, dir, t, hlast, hchar⟩ := hleaf hf hc
  refine ⟨?_, dir, t, hlast, hchar⟩
  rcases hchar with ⟨-, hp, -, hx⟩ | ⟨-, hp, -, -, hx⟩
  · exact ⟨_, hp, hx⟩
  · exact ⟨_, hp, hx⟩

/-- C1 counterexample: a directory named `sh-foo` whose execute bit is set is
returned as a Leaf (found, not a container) although its path is a
directory, refuting "the path refers to an executable file (not a
directory)". -/
theorem C1_counterexample :
    find_command_path fsShFoo ["foo"] "r" =
      Except.ok ⟨["foo"], some "r/sh-foo", some true, some false, some []⟩ ∧
    fsShFoo.isDir "r/sh-foo" = true :=
  ⟨rfl, rfl⟩

/-- C1 witness: the amended characterization evaluated on the `sh-foo`
fallback tree. -/
theorem C1_witness :
    (∃ pth,
        (⟨["foo"], some "r/sh-foo", some true, some false, some []⟩ :
            Command).path = some pth ∧
        fsShFoo.isExec pth = true) ∧
    (∃ dir t,
        (⟨["foo"], some "r/sh-foo", some true, some false, some []⟩ :
            Command).tokens.getLast? = some t ∧
        (DirectLeafAt fsShFoo
            ⟨["foo"], some "r/sh-foo", some true, some false, some []⟩ dir t ∨
          ShFallbackLeafAt fsShFoo
            ⟨["foo"], some "r/sh-foo", some true, some false, some []⟩ dir t)) :=
  C1_leaf_characterization fsShFoo ["foo"] "r" _ rfl rfl rfl

/-- C2 (amended): for every token sequence whose first token is a non-empty
string not beginning with the flag prefix and whose remaining tokens are
non-empty strings, `find_command_path` returns a `Command` value; it is a
pure function of the two read-only filesystem probes. -/
theorem C2_returns_value (fs : FS) (root t0 : String) (rest : List String)
    (h0 : t0 ≠ "") (hf : t0.front ≠ '-') (hrest : ∀ t ∈ rest, t ≠ "") :
    ∃ c, find_command_path fs (t0 :: rest) root = Except.ok c := by
  unfold find_command_path
  simp only [findLoop]
  rw [if_neg h0, if_neg hf]
  by_cases h2 : fs.isDir (joinP root t0) = true
  · rw [if_pos h2]
    exact findLoop_total fs rest (joinP root t0) [t0] false hrest
  rw [if_neg h2]
  by_cases h3 : fs.isExec (joinP root t0) = true
  · rw [if_pos h3]; exact ⟨_, rfl⟩
  rw [if_neg h3]
  by_cases h4 : fs.isExec (joinP root (mkcmd t0 true)) = true
  · rw [if_pos h4]; exact ⟨_, rfl⟩
  rw [if_neg h4]; exact ⟨_, rfl⟩

/-- C2 counterexample: on the non-empty token sequences `["-h"]` and `[""]`
the function does not return a value: it raises `UnboundLocalError`
(reading the never-assigned loop variable `is_dir` in the final `return`)
and `IndexError` (indexing `token[0]` on an empty string). -/
theorem C2_counterexample :
    find_command_path fsEmpty ["-h"] "r" = Except.error "UnboundLocalError" ∧
    find_command_path fsEmpty [""] "r" = Except.error "IndexError" :=
  ⟨rfl, rfl⟩

/-- C2 witness: the amended totality statement evaluated on a concrete tree
and token sequence. -/
theorem C2_witness :
    ∃ c, find_command_path fsEmpty ["a", "b"] "r" = Except.ok c :=
  C2_returns_value fsEmpty "r" "a" ["b"] (by decide) (by decide) (by decide)

/-- C3: the consumed tokens of every returned `Command` are a prefix of the
input sequence, and for a Leaf (found, not a container) the consumed tokens
followed by the arguments are exactly the input sequence. -/
theorem C3_prefix_partition (fs : FS) (argv : List String) (root : String)
    (c : Command) (h : find_command_path fs argv root = Except.ok c) :
    List.IsPrefix c.tokens argv ∧
    (c.found = true → c.is_container = some false →
      ∃ args, c.arguments = some args ∧ c.tokens ++ args = argv) := by
  obtain ⟨⟨pre, htok, hpre⟩, hleaf⟩ :=
    findLoop_ok_spec fs argv root [] none c (by simp) h
  constructor
  · rw [htok]; simpa using hpre
  · intro hfound hcont
    obtain ⟨⟨args, h1, h2⟩, -⟩ := hleaf hfound hcont
    exact ⟨args, h1, by simpa using h2⟩

/-- C3 witness: the prefix and partition properties evaluated on a tree
where `["a", "b", "x"]` resolves to the leaf `r/a/b` with argument `x`. -/
theorem C3_witness :
    List.IsPrefix (Command.make ["a", "b"] "r/a/b" false false ["x"]).tokens
      ["a", "b", "x"] ∧
    ((Command.make ["a", "b"] "r/a/b" false false ["x"]).found = true →
      (Command.make ["a", "b"] "r/a/b" false false ["x"]).is_container =
        some false →
      ∃ args,
        (Command.make ["a", "b"] "r/a/b" false false ["x"]).arguments =
          some args ∧
        (Command.make ["a", "b"] "r/a/b" false false ["x"]).tokens ++ args =
          ["a", "b", "x"]) :=
  C3_prefix_partition fsTree ["a", "b", "x"] "r" _ rfl

/-- C4: a directory token followed by a flag token yields a Container at
that directory; the scan stops at the flag without consuming it. -/
theorem C4_flag_truncation (fs : FS) (r t f : String) (ht : t ≠ "")
    (htf : t.front ≠ '-') (hfne : f ≠ "") (hff : f.front = '-')
    (hdir : fs.isDir (joinP r t) = true) :
    find_command_path fs [t, f] r =
      Except.ok (Command.make [t] (joinP r t) false true []) := by
  simp [find_command_path, findLoop, ht, htf, hfne, hff, hdir]

/-- C4 witness: `["deploy", "--help"]` over a tree with directory
`r/deploy`. -/
theorem C4_witness :
    find_command_path fsDeploy ["deploy", "--help"] "r" =
      Except.ok (Command.make ["deploy"] (joinP "r" "deploy") false true []) :=
  C4_flag_truncation fsDeploy "r" "deploy" "--help" (by decide) (by decide)
    (by decide) (by decide) (by decide)

/-- C5: when both `t` and `sh-t` are executable (and `t` is not a
directory), the direct match wins: the Leaf has `is_sh = false` and the
direct path. -/
theorem C5_tie_break (fs : FS) (d t : String) (rest : List String)
    (ht : t ≠ "") (htf : t.front ≠ '-')
    (h1 : fs.isDir (joinP d t) = false) (h2 : fs.isExec (joinP d t) = true)
    (h3 : fs.isExec (joinP d ("sh-" ++ t)) = true) :
    find_command_path fs (t :: rest) d =
      Except.ok (Command.make [t] (joinP d t) false false rest) := by
  simp [find_command_path, findLoop, ht, htf, h1, h2]

/-- C5 witness: the tie-break evaluated where both `r/foo` and `r/sh-foo`
are executable. -/
theorem C5_witness :
    find_command_path fsFooBoth ["foo"] "r" =
      Except.ok (Command.make ["foo"] (joinP "r" "foo") false false []) :=
  C5_tie_break fsFooBoth "r" "foo" [] (by decide) (by decide) (by decide)
    (by decide) (by decide)

/-- C6: when no entry `t` exists (neither directory nor executable) but
`sh-t` is executable, the Leaf has `is_sh = true` and the `sh-` path. -/
theorem C6_sh_fallback (fs : FS) (d t : String) (rest : List String)
    (ht : t ≠ "") (htf : t.front ≠ '-')
    (h1 : fs.isDir (joinP d t) = false) (h2 : fs.isExec (joinP d t) = false)
    (h3 : fs.isExec (joinP d ("sh-" ++ t)) = true) :
    find_command_path fs (t :: rest) d =
      Except.ok (Command.make [t] (joinP d ("sh-" ++ t)) true false rest) := by
  simp [find_command_path, findLoop, mkcmd, ht, htf, h1, h2, h3]

/-- C6 witness: the fallback evaluated where only `r/sh-foo` answers the
executable probe. -/
theorem C6_witness :
    find_command_path fsShFoo ["foo"] "r" =
      Except.ok
        (Command.make ["foo"] (joinP "r" ("sh-" ++ "foo")) true false []) :=
  C6_sh_fallback fsShFoo "r" "foo" [] (by decide) (by decide) (by decide)
    (by decide) (by decide)

/-- C7: when `a` is a directory but `x` matches nothing inside it, the
result is the not-found sentinel carrying exactly `[a, x]` and `None` path
and arguments; the outcome is the same for every third token `y` and every
further suffix, so unexamined trailing tokens never influence it. -/
theorem C7_early_failure (fs : FS) (r a x : String) (ha : a ≠ "")
    (haf : a.front ≠ '-') (hx : x ≠ "") (hxf : x.front ≠ '-')
    (h1 : fs.isDir (joinP r a) = true)
    (h2 : fs.isDir (joinP (joinP r a) x) = false)
    (h3 : fs.isExec (joinP (joinP r a) x) = false)
    (h4 : fs.isExec (joinP (joinP r a) ("sh-" ++ x)) = false)
    (y : String) (ys : List String) :
    find_command_path fs (a :: x :: y :: ys) r =
      Except.ok ⟨[a, x], none, none, none, none⟩ := by
  simp [find_command_path, findLoop, mkcmd, Command.create_not_found,
    ha, haf, hx, hxf, h1, h2, h3, h4]

/-- C7 witness: the early failure evaluated with the empty string as the
trailing token `y` — a token that would raise `IndexError` were it ever
examined. -/
theorem C7_witness :
    find_command_path fsDirs ["a", "x", ""] "r" =
      Except.ok ⟨["a", "x"], none, none, none, none⟩ :=
  C7_early_failure fsDirs "r" "a" "x" (by decide) (by decide) (by decide)
    (by decide) (by decide) (by decide) (by decide) (by decide) "" []

/-- C8: two nested directory tokens are both consumed by directory descent
and yield a Container at the inner directory. -/
theorem C8_full_descent (fs : FS) (r a b : String) (ha : a ≠ "")
    (haf : a.front ≠ '-') (hb : b ≠ "") (hbf : b.front ≠ '-')
    (h1 : fs.isDir (joinP r a) = true)
    (h2 : fs.isDir (joinP (joinP r a) b) = true)
    (h3 : fs.isExec (joinP (joinP r a) b) = false)
    (h4 : fs.isExec (joinP (joinP r a) ("sh-" ++ b)) = false) :
    find_command_path fs [a, b] r =
      Except.ok
        (Command.make [a, b] (joinP (joinP r a) b) false true []) := by
  simp [find_command_path, findLoop, ha, haf, hb, hbf, h1, h2]

/-- C8 witness: the full descent evaluated on the tree with directories
`r/a` and `r/a/b`. -/
theorem C8_witness :
    find_command_path fsDirs ["a", "b"] "r" =
      Except.ok
        (Command.make ["a", "b"] (joinP (joinP "r" "a") "b") false true []) :=
  C8_full_descent fsDirs "r" "a" "b" (by decide) (by decide) (by decide)
    (by decide) (by decide) (by decide) (by decide) (by decide)

end Subdue

namespace Subdue

/-- C9 (amended): on a not-found resolution the CLI writes
`<name>: no such command \x60<consumed tokens joined by space>\x27` followed by a
newline to standard error and exits with code 1, and on a container it
writes `<name>: can\x27t run a container \x60<consumed>\x27` likewise — the
consumed tokens are enclosed in a backquote and a straight quote (GNU
style), not in two straight quotes. -/
theorem C9_error_messages (fs : FS) (argv : List String) (root name : String)
    (c : Command) (h : find_command_path fs argv root = Except.ok c) :
    (c.found = false →
      mainDispatch name c =
        some ⟨name ++ ": no such command `" ++
          String.intercalate " " c.tokens ++ "\x27\n", 1⟩) ∧
    (c.found = true → c.is_container = some true →
      mainDispatch name c =
        some ⟨name ++ ": can\x27t run a container `" ++
          String.intercalate " " c.tokens ++ "\x27\n", 1⟩) := by
  constructor
  · intro hf
    rw [mainDispatch, if_pos hf]
    simp [die, noSuchCommandMsg, Command.command, String.append_assoc]
  · intro hf hc
    rw [mainDispatch, if_neg (by simp [hf]), if_pos hc]
    simp [die, cantRunContainerMsg, Command.command, String.append_assoc]

/-- C9 counterexample: the exact strings written for a not-found command
`x` and a container `a` differ from the spec-claimed straight-quoted
strings. -/
theorem C9_counterexample :
    mainDispatch "sub" (Command.create_not_found ["x"]) =
      some ⟨"sub: no such command `x\x27\n", 1⟩ ∧
    noSuchCommandMsg "sub" (Command.create_not_found ["x"]) ≠
      specNoSuchCommandMsg "sub" (Command.create_not_found ["x"]) ∧
    mainDispatch "sub" (Command.make ["a"] "r/a" false true []) =
      some ⟨"sub: can\x27t run a container `a\x27\n", 1⟩ ∧
    cantRunContainerMsg "sub" (Command.make ["a"] "r/a" false true []) ≠
      specCantRunContainerMsg "sub" (Command.make ["a"] "r/a" false true []) :=
  ⟨rfl, by decide, rfl, by decide⟩

/-- C9 witness: the amended message format evaluated for the not-found
resolution of `["x"]` over the empty tree. -/
theorem C9_witness :
    mainDispatch "sub" (Command.create_not_found ["x"]) =
      some ⟨"sub" ++ ": no such command `" ++
        String.intercalate " " (Command.create_not_found ["x"]).tokens ++
        "\x27\n", 1⟩ :=
  (C9_error_messages fsEmpty ["x"] "r" "sub" _ rfl).1 rfl

/-- C10: for every `Command` returned by `find_command_path` with at least
one consumed token, `is_eval` is true iff the last consumed token begins
with `sh-`, independently of how the leaf was found; concretely, the `sh-`
fallback on token `foo` gives `is_eval = false` while `found_with_sh` is
true, and a direct match on a token spelled `sh-bar` gives
`is_eval = true` while `found_with_sh` is false. -/
theorem C10_is_eval_last_token :
    (∀ (fs : FS) (argv : List String) (root : String) (c : Command),
      find_command_path fs argv root = Except.ok c → c.tokens ≠ [] →
      c.is_eval = Except.ok (strStartsWith (c.tokens.getLastD "") "sh-")) ∧
    (find_command_path fsShFoo ["foo"] "r" =
        Except.ok ⟨["foo"], some "r/sh-foo", some true, some false, some []⟩ ∧
      (⟨["foo"], some "r/sh-foo", some true, some false, some []⟩ :
          Command).is_eval = Except.ok false ∧
      (⟨["foo"], some "r/sh-foo", some true, some false, some []⟩ :
          Command).found_with_sh = some true) ∧
    (find_command_path fsShBar ["sh-bar"] "r" =
        Except.ok
          ⟨["sh-bar"], some "r/sh-bar", some false, some false, some []⟩ ∧
      (⟨["sh-bar"], some "r/sh-bar", some false, some false, some []⟩ :
          Command).is_eval = Except.ok true ∧
      (⟨["sh-bar"], some "r/sh-bar", some false, some false, some []⟩ :
          Command).found_with_sh = some false) :=
  ⟨fun _ _ _ c _ h => command_is_eval_last c h,
    ⟨rfl, rfl, rfl⟩, ⟨rfl, rfl, rfl⟩⟩

/-- C10 witness: the general `is_eval` law evaluated on the fallback leaf
for token `foo`. -/
theorem C10_witness :
    (⟨["foo"], some "r/sh-foo", some true, some false, some []⟩ :
        Command).is_eval =
      Except.ok (strStartsWith ((["foo"] : List String).getLastD "") "sh-") :=
  C10_is_eval_last_token.1 fsShFoo ["foo"] "r" _ rfl (by decide)

end Subdue
